import Mathlib

/-! # Meetly: the invitation-code join flow and the profile form

A shallow embedding of `handleJoinWithCode` (src/components/Dashboard.jsx,
lines 52-79) together with the two remote calls it makes on the community
directory, and of `handleSave`, `addAllergy` and `removeAllergy`
(src/components/Profile.jsx, lines 51-80).  JavaScript strings are embedded as Lean strings, arrays as lists,
an absent (`undefined`/`null`) field as `none`.  The asynchronous handler is
embedded as a function from the component state and the directory to the
state and directory it leaves behind, the ordered trace of the effects it
performed, and the way the run ended.
-/

set_option autoImplicit false

namespace Meetly

/-! ## JavaScript string helpers -/

/-- The code points removed by `String.prototype.trim`: the ECMAScript
`WhiteSpace` and `LineTerminator` productions. -/
def isJsWhiteSpace (c : Char) : Bool :=
  decide (c.toNat ∈ [0x9, 0xA, 0xB, 0xC, 0xD, 0x20, 0xA0, 0x1680, 0x2028, 0x2029,
    0x202F, 0x205F, 0x3000, 0xFEFF]) || (decide (0x2000 ≤ c.toNat) && decide (c.toNat ≤ 0x200A))

/-- Trimming on the character list: drop white space at the front, then at the back. -/
def trimChars (l : List Char) : List Char :=
  (((l.dropWhile isJsWhiteSpace).reverse).dropWhile isJsWhiteSpace).reverse

/-- The embedding of `String.prototype.trim`. -/
def jsTrim (s : String) : String :=
  String.mk (trimChars s.data)

/-! ## Data model -/

/-- A community record of the directory, restricted to the fields the join
flow reads: `id`, `invitation_code` and `members` (each of the last two may be
absent on a record). -/
structure Community where
  id : String
  invitation_code : Option String
  members : Option (List String)
  deriving DecidableEq

/-- The signed-in user as returned by `base44.auth.me()`; the join flow reads `email`. -/
structure User where
  email : String
  deriving DecidableEq

/-- The React state of `Dashboard` (lines 20-22). -/
structure DashboardState where
  user : Option User
  inviteCode : String
  isJoining : Bool
  deriving DecidableEq

/-- The observable effects of a run, in the order they are performed. -/
inductive Effect where
  /-- The call `base44.entities.Community.filter` on `invitation_code`. -/
  | filterCall (code : String)
  /-- The call `base44.entities.Community.update` of `members` under an id. -/
  | updateCall (id : String) (members : List String)
  | toastError (msg : String)
  | toastSuccess (msg : String)
  | toastInfo (msg : String)
  /-- The assignment to `window.location.href`. -/
  | redirect (url : String)
  deriving DecidableEq

/-- The exceptions a run can end with. -/
inductive JsError where
  /-- Reading a property of `null` (`user.email` with `user === null`). -/
  | typeError
  /-- An awaited remote call rejected. -/
  | rejected
  deriving DecidableEq

/-- How a run of the handler ended: the path taken through lines 52-79. -/
inductive Outcome where
  /-- Returned at the guard of line 53. -/
  | noop
  /-- Returned at line 61. -/
  | invalidCode
  /-- Reached line 78 through the branch of lines 68-71. -/
  | joined (id : String)
  /-- Reached line 78 through the branch of line 73. -/
  | alreadyMember (id : String)
  /-- An exception left the handler. -/
  | threw (e : JsError)
  deriving DecidableEq

/-- What the handler depends on from outside the component: the imported
`createPageUrl` (its module `../utils` is not part of the sources) and whether
each of the two awaited remote calls rejects. -/
structure Env where
  createPageUrl : String → String
  filterRejects : Bool
  updateRejects : Bool

/-- The result of one run of the handler. -/
structure Run where
  state : DashboardState
  directory : List Community
  trace : List Effect
  outcome : Outcome
  deriving DecidableEq

/-! ## The community directory (remote collaborator) -/

/-- Modelled from the spec: the remote query `Community.filter` on
`invitation_code` (the SDK client and the hosted store are not part of the
sources).  It returns, in directory order, the communities whose
`invitation_code` exactly equals the given code. -/
def filterByInvitationCode (dir : List Community) (code : String) : List Community :=
  dir.filter (fun c => decide (c.invitation_code = some code))

/-- Modelled from the spec: the remote write `Community.update(id, members)` (the
SDK client and the hosted store are not part of the sources).  It overwrites
the `members` field of the record stored under `id` and touches no other field
and no other record. -/
def updateMembers (dir : List Community) (id : String) (members : List String) :
    List Community :=
  dir.map (fun c => if c.id = id then { c with members := some members } else c)

/-! ## The handler -/

/-- The embedding of `handleJoinWithCode` (Dashboard.jsx, lines 52-79). -/
def handleJoinWithCode (env : Env) (st : DashboardState) (dir : List Community) : Run :=
  -- line 53: if (!inviteCode.trim()) return;
  if jsTrim st.inviteCode = "" then
    { state := st, directory := dir, trace := [], outcome := .noop }
  else
    -- line 54: setIsJoining(true)
    let st1 : DashboardState := { st with isJoining := true }
    let code := jsTrim st.inviteCode
    -- line 56: await Community.filter(...)
    if env.filterRejects then
      { state := st1, directory := dir, trace := [.filterCall code],
        outcome := .threw .rejected }
    else
      match filterByInvitationCode dir code with
      | [] =>
        -- lines 58-62
        { state := { st1 with isJoining := false }, directory := dir,
          trace := [.filterCall code, .toastError "Invalid invitation code"],
          outcome := .invalidCode }
      | community :: _ =>
        -- line 65: community.members || []
        let currentMembers := community.members.getD []
        -- line 67: user.email
        match st.user with
        | none =>
          { state := st1, directory := dir, trace := [.filterCall code],
            outcome := .threw .typeError }
        | some user =>
          if !currentMembers.contains user.email then
            -- lines 68-70
            let newMembers := currentMembers ++ [user.email]
            if env.updateRejects then
              { state := st1, directory := dir,
                trace := [.filterCall code, .updateCall community.id newMembers],
                outcome := .threw .rejected }
            else
              -- lines 71, 76-78
              { state := { st1 with inviteCode := "", isJoining := false },
                directory := updateMembers dir community.id newMembers,
                trace := [.filterCall code, .updateCall community.id newMembers,
                  .toastSuccess "Successfully joined the community!",
                  .redirect (env.createPageUrl ("CommunityDetail?id=" ++ community.id))],
                outcome := .joined community.id }
          else
            -- lines 73, 76-78
            { state := { st1 with inviteCode := "", isJoining := false },
              directory := dir,
              trace := [.filterCall code,
                .toastInfo "You are already a member of this community",
                .redirect (env.createPageUrl ("CommunityDetail?id=" ++ community.id))],
              outcome := .alreadyMember community.id }

/-- Two runs in immediate succession with the same code and the same user: the
second run starts from the component state and the directory left by the first,
with the same code entered again. -/
def joinTwice (env1 env2 : Env) (st : DashboardState) (dir : List Community) : Run × Run :=
  let r1 := handleJoinWithCode env1 st dir
  (r1, handleJoinWithCode env2 { r1.state with inviteCode := st.inviteCode } r1.directory)

/-! ## Projections of a trace -/

/-- The writes of a trace: the `(id, members)` arguments of its `update` calls, in order. -/
def writesOf : List Effect → List (String × List String)
  | [] => []
  | .updateCall id members :: rest => (id, members) :: writesOf rest
  | _ :: rest => writesOf rest

/-- The lookups of a trace: the codes of its `filter` calls, in order. -/
def lookupsOf : List Effect → List String
  | [] => []
  | .filterCall code :: rest => code :: lookupsOf rest
  | _ :: rest => lookupsOf rest

/-- The redirects of a trace: the URLs assigned to `window.location.href`, in order. -/
def redirectsOf : List Effect → List String
  | [] => []
  | .redirect url :: rest => url :: redirectsOf rest
  | _ :: rest => redirectsOf rest

/-- The toasts of a trace, in order. -/
def toastsOf : List Effect → List Effect
  | [] => []
  | .toastError m :: rest => .toastError m :: toastsOf rest
  | .toastSuccess m :: rest => .toastSuccess m :: toastsOf rest
  | .toastInfo m :: rest => .toastInfo m :: toastsOf rest
  | _ :: rest => toastsOf rest

/-- The membership invariant of the data model: no community lists a user twice. -/
def MembersNodup (dir : List Community) : Prop :=
  ∀ c ∈ dir, (c.members.getD []).Nodup

instance (dir : List Community) : Decidable (MembersNodup dir) := by
  unfold MembersNodup; infer_instance

/-- The identity page-URL builder, used for concrete runs. -/
def idEnv : Env := { createPageUrl := fun p => p, filterRejects := false, updateRejects := false }

/-- The directory of the scenarios in section 8 of the specification. -/
def dirABC : List Community :=
  [{ id := "c1", invitation_code := some "ABC123", members := some ["alice@x.com"] }]

def stBob : DashboardState :=
  { user := some { email := "bob@x.com" }, inviteCode := " ABC123 ", isJoining := false }

def stAlice : DashboardState :=
  { user := some { email := "alice@x.com" }, inviteCode := "ABC123", isJoining := false }

/-- A directory holding a community whose invitation code is the empty string. -/
def dirEmptyCode : List Community :=
  [{ id := "c1", invitation_code := some "", members := some ["alice@x.com"] }]

def stAliceBlank : DashboardState :=
  { user := some { email := "alice@x.com" }, inviteCode := "", isJoining := false }

/-- A directory whose stored member list already repeats an identifier. -/
def dirRepeated : List Community :=
  [{ id := "c1", invitation_code := some "ABC123",
     members := some ["alice@x.com", "alice@x.com"] }]

def stNoUserUnknown : DashboardState :=
  { user := none, inviteCode := "ZZZZZZ", isJoining := false }

def stNoUser : DashboardState :=
  { user := none, inviteCode := "ABC123", isJoining := false }

/-- An environment whose lookup rejects. -/
def envFilterRejects : Env :=
  { createPageUrl := fun p => p, filterRejects := true, updateRejects := false }

/-- An environment whose write rejects. -/
def envUpdateRejects : Env :=
  { createPageUrl := fun p => p, filterRejects := false, updateRejects := true }

def stWhite : DashboardState :=
  { user := some { email := "bob@x.com" }, inviteCode := " \t\n ", isJoining := false }

def stBobLower : DashboardState :=
  { user := some { email := "bob@x.com" }, inviteCode := "abc123", isJoining := false }

def stBobUnknown : DashboardState :=
  { user := some { email := "bob@x.com" }, inviteCode := "ZZZZZZ", isJoining := false }

/-! ## The join flow split at its await on the lookup -/

/-- The first phase of `handleJoinWithCode` (lines 53-56): the guard and the awaited
lookup.  It yields the communities the lookup resolved with, or nothing when the
handler returned at the guard or the lookup rejected. -/
def lookupPhase (env : Env) (st : DashboardState) (dir : List Community) :
    Option (List Community) :=
  if jsTrim st.inviteCode = "" then none
  else if env.filterRejects then none
  else some (filterByInvitationCode dir (jsTrim st.inviteCode))

/-- The second phase of `handleJoinWithCode` (lines 58-78): the handler resumed with
the `communities` its lookup resolved with, its write landing on the directory `dir`
as it is at that moment. -/
def resumeAfterLookup (env : Env) (st : DashboardState) (communities : List Community)
    (dir : List Community) : Run :=
  let st1 : DashboardState := { st with isJoining := true }
  let code := jsTrim st.inviteCode
  match communities with
  | [] =>
    { state := { st1 with isJoining := false }, directory := dir,
      trace := [.filterCall code, .toastError "Invalid invitation code"],
      outcome := .invalidCode }
  | community :: _ =>
    let currentMembers := community.members.getD []
    match st.user with
    | none =>
      { state := st1, directory := dir, trace := [.filterCall code],
        outcome := .threw .typeError }
    | some user =>
      if !currentMembers.contains user.email then
        let newMembers := currentMembers ++ [user.email]
        if env.updateRejects then
          { state := st1, directory := dir,
            trace := [.filterCall code, .updateCall community.id newMembers],
            outcome := .threw .rejected }
        else
          { state := { st1 with inviteCode := "", isJoining := false },
            directory := updateMembers dir community.id newMembers,
            trace := [.filterCall code, .updateCall community.id newMembers,
              .toastSuccess "Successfully joined the community!",
              .redirect (env.createPageUrl ("CommunityDetail?id=" ++ community.id))],
            outcome := .joined community.id }
      else
        { state := { st1 with inviteCode := "", isJoining := false },
          directory := dir,
          trace := [.filterCall code,
            .toastInfo "You are already a member of this community",
            .redirect (env.createPageUrl ("CommunityDetail?id=" ++ community.id))],
          outcome := .alreadyMember community.id }

/-- Two runs of the handler, by two clients `A` and `B`, interleaved at their awaits:
both lookups resolve on the initial directory, then the write of `A` lands, then the
write of `B`.  Nothing is produced when a run does not get past its lookup. -/
def interleavedJoins (envA envB : Env) (stA stB : DashboardState) (dir : List Community) :
    Option (Run × Run) :=
  match lookupPhase envA stA dir, lookupPhase envB stB dir with
  | some communitiesA, some communitiesB =>
    let rA := resumeAfterLookup envA stA communitiesA dir
    some (rA, resumeAfterLookup envB stB communitiesB rA.directory)
  | _, _ => none

/-- The members stored for the community `id` (absent counting as empty), if the
directory holds it. -/
def storedMembers (dir : List Community) (id : String) : Option (List String) :=
  (dir.find? (fun c => decide (c.id = id))).map (fun c => c.members.getD [])

/-! ## The Profile component -/

/-- The `formData` state of `Profile` (Profile.jsx, lines 21-27). -/
structure FormData where
  full_name : String
  phone_number : String
  allergies : List String
  notes : String
  avatar_url : String
  deriving DecidableEq

/-- The React state of `Profile` (Profile.jsx, lines 20-30). -/
structure ProfileState where
  user : Option User
  formData : FormData
  newAllergy : String
  isSaving : Bool
  isUploading : Bool
  deriving DecidableEq

/-- The values held by the fields of an update payload. -/
inductive JsValue where
  | str (s : String)
  | strs (l : List String)
  deriving DecidableEq

/-- The observable effects of `handleSave`, in the order they are performed. -/
inductive ProfileEffect where
  /-- The call `base44.auth.updateMe` with an object literal, as its fields in order. -/
  | updateMe (payload : List (String × JsValue))
  | toastSuccess (msg : String)
  deriving DecidableEq

/-- The result of one run of `handleSave`. -/
structure SaveRun where
  state : ProfileState
  trace : List ProfileEffect
  error : Option JsError
  deriving DecidableEq

/-- The embedding of `handleSave` (Profile.jsx, lines 51-63); `updateMeRejects` tells
whether the awaited `updateMe` rejects. -/
def handleSave (updateMeRejects : Bool) (st : ProfileState) : SaveRun :=
  -- line 52
  let st1 : ProfileState := { st with isSaving := true }
  -- lines 54-59
  let payload : List (String × JsValue) :=
    [("phone_number", .str st.formData.phone_number),
     ("allergies", .strs st.formData.allergies),
     ("notes", .str st.formData.notes),
     ("avatar_url", .str st.formData.avatar_url)]
  if updateMeRejects then
    { state := st1, trace := [.updateMe payload], error := some .rejected }
  else
    -- lines 61-62
    { state := { st1 with isSaving := false },
      trace := [.updateMe payload, .toastSuccess "Profile updated successfully!"],
      error := none }

/-- The payloads of the `updateMe` calls of a trace, in order. -/
def payloadsOf : List ProfileEffect → List (List (String × JsValue))
  | [] => []
  | .updateMe payload :: rest => payload :: payloadsOf rest
  | _ :: rest => payloadsOf rest

/-- The embedding of `addAllergy` (Profile.jsx, lines 65-73). -/
def addAllergy (st : ProfileState) : ProfileState :=
  if jsTrim st.newAllergy ≠ "" ∧ !st.formData.allergies.contains (jsTrim st.newAllergy) then
    { st with
      formData := { st.formData with
        allergies := st.formData.allergies ++ [jsTrim st.newAllergy] },
      newAllergy := "" }
  else st

/-- The embedding of `removeAllergy` (Profile.jsx, lines 75-80). -/
def removeAllergy (allergy : String) (st : ProfileState) : ProfileState :=
  { st with
    formData := { st.formData with
      allergies := st.formData.allergies.filter (fun a => decide (a ≠ allergy)) } }

/-! ## Concrete inputs for the later sections -/

/-- Two communities sharing one invitation code; only the second lists bob. -/
def dirDuplicateCode : List Community :=
  [{ id := "c1", invitation_code := some "DUP", members := some ["alice@x.com"] },
   { id := "c2", invitation_code := some "DUP", members := some ["bob@x.com"] },
   { id := "c3", invitation_code := some "OTHER", members := none }]

def stBobDup : DashboardState :=
  { user := some { email := "bob@x.com" }, inviteCode := "DUP", isJoining := false }

def stCarol : DashboardState :=
  { user := some { email := "carol@x.com" }, inviteCode := "ABC123", isJoining := false }

def formNuts : FormData :=
  { full_name := "Bob", phone_number := "555", allergies := ["peanuts", "gluten"],
    notes := "none", avatar_url := "a.png" }

def profileNuts : ProfileState :=
  { user := some { email := "bob@x.com" }, formData := formNuts, newAllergy := " soy ",
    isSaving := false, isUploading := false }

def profileDup : ProfileState :=
  { user := some { email := "bob@x.com" }, formData := formNuts, newAllergy := "gluten ",
    isSaving := false, isUploading := false }

/-! ## String trimming -/

theorem trimChars_eq_nil_of_all (l : List Char) (h : ∀ c ∈ l, isJsWhiteSpace c = true) :
    trimChars l = [] := by
  have h1 : l.dropWhile isJsWhiteSpace = [] := List.dropWhile_eq_nil_iff.mpr h
  simp [trimChars, h1]

theorem all_of_trimChars_eq_nil (l : List Char) (h : trimChars l = []) :
    ∀ c ∈ l, isJsWhiteSpace c = true := by
  unfold trimChars at h
  simp only [List.reverse_eq_nil_iff, List.dropWhile_eq_nil_iff, List.mem_reverse] at h
  intro c hc
  by_contra hn
  have hne : l.dropWhile isJsWhiteSpace ≠ [] := by
    intro h0
    exact hn (List.dropWhile_eq_nil_iff.mp h0 c hc)
  have hhead := List.head_dropWhile_not isJsWhiteSpace l hne
  have := h _ (List.head_mem hne)
  simp [this] at hhead

/-- The front of a back-trimmed list is the front of the list. -/
theorem dropWhile_rdropWhile_of_dropWhile_eq_self (p : Char → Bool) (l : List Char)
    (h : l.dropWhile p = l) : (l.rdropWhile p).dropWhile p = l.rdropWhile p := by
  rcases hl : l.rdropWhile p with _ | ⟨a, t⟩
  · rfl
  · obtain ⟨s, hs⟩ : (l.rdropWhile p) <+: l := List.rdropWhile_prefix p l
    rw [hl] at hs
    subst hs
    have ha : p a = false := by
      by_contra hp
      simp only [Bool.not_eq_false] at hp
      have hlen := congrArg List.length h
      have hsuf : ((t ++ s).dropWhile p) <:+ (t ++ s) := List.dropWhile_suffix p
      simp only [List.cons_append, List.dropWhile_cons, hp, if_true, List.length_cons] at hlen
      have := hsuf.length_le
      omega
    simp [List.dropWhile_cons, ha]

theorem trimChars_idem (l : List Char) : trimChars (trimChars l) = trimChars l := by
  have key : trimChars l = (l.dropWhile isJsWhiteSpace).rdropWhile isJsWhiteSpace := rfl
  have h1 : (trimChars l).dropWhile isJsWhiteSpace = trimChars l := by
    rw [key]
    exact dropWhile_rdropWhile_of_dropWhile_eq_self _ _ (List.dropWhile_idempotent _ _)
  have h2 : trimChars (trimChars l) =
      ((trimChars l).dropWhile isJsWhiteSpace).rdropWhile isJsWhiteSpace := rfl
  rw [h2, h1, key]
  exact List.rdropWhile_idempotent _ _

theorem jsTrim_idem (s : String) : jsTrim (jsTrim s) = jsTrim s := by
  simp [jsTrim, trimChars_idem]

theorem jsTrim_eq_empty_iff (s : String) :
    jsTrim s = "" ↔ ∀ c ∈ s.data, isJsWhiteSpace c = true := by
  constructor
  · intro h
    apply all_of_trimChars_eq_nil
    have := congrArg String.data h
    simpa [jsTrim] using this
  · intro h
    simp [jsTrim, trimChars_eq_nil_of_all _ h]

/-! ## The paths of the handler -/

theorem run_blank (env : Env) (st : DashboardState) (dir : List Community)
    (hcode : jsTrim st.inviteCode = "") :
    handleJoinWithCode env st dir =
      { state := st, directory := dir, trace := [], outcome := .noop } := by
  simp [handleJoinWithCode, hcode]

theorem run_filter_rejected (env : Env) (st : DashboardState) (dir : List Community)
    (hcode : jsTrim st.inviteCode ≠ "") (hf : env.filterRejects = true) :
    handleJoinWithCode env st dir =
      { state := { st with isJoining := true }, directory := dir,
        trace := [.filterCall (jsTrim st.inviteCode)], outcome := .threw .rejected } := by
  simp [handleJoinWithCode, hcode, hf]

theorem run_invalid (env : Env) (st : DashboardState) (dir : List Community)
    (hcode : jsTrim st.inviteCode ≠ "") (hf : env.filterRejects = false)
    (hl : filterByInvitationCode dir (jsTrim st.inviteCode) = []) :
    handleJoinWithCode env st dir =
      { state := { st with isJoining := false }, directory := dir,
        trace := [.filterCall (jsTrim st.inviteCode), .toastError "Invalid invitation code"],
        outcome := .invalidCode } := by
  simp [handleJoinWithCode, hcode, hf, hl]

theorem run_no_user (env : Env) (st : DashboardState) (dir : List Community)
    (c : Community) (rest : List Community)
    (hcode : jsTrim st.inviteCode ≠ "") (hf : env.filterRejects = false)
    (hl : filterByInvitationCode dir (jsTrim st.inviteCode) = c :: rest)
    (hu : st.user = none) :
    handleJoinWithCode env st dir =
      { state := { st with isJoining := true }, directory := dir,
        trace := [.filterCall (jsTrim st.inviteCode)], outcome := .threw .typeError } := by
  simp [handleJoinWithCode, hcode, hf, hl, hu]

theorem run_update_rejected (env : Env) (st : DashboardState) (dir : List Community)
    (c : Community) (rest : List Community) (u : User)
    (hcode : jsTrim st.inviteCode ≠ "") (hf : env.filterRejects = false)
    (hl : filterByInvitationCode dir (jsTrim st.inviteCode) = c :: rest)
    (hu : st.user = some u) (hm : u.email ∉ c.members.getD [])
    (hw : env.updateRejects = true) :
    handleJoinWithCode env st dir =
      { state := { st with isJoining := true }, directory := dir,
        trace := [.filterCall (jsTrim st.inviteCode),
          .updateCall c.id (c.members.getD [] ++ [u.email])],
        outcome := .threw .rejected } := by
  simp [handleJoinWithCode, hcode, hf, hl, hu, hm, hw]

theorem run_joined (env : Env) (st : DashboardState) (dir : List Community)
    (c : Community) (rest : List Community) (u : User)
    (hcode : jsTrim st.inviteCode ≠ "") (hf : env.filterRejects = false)
    (hl : filterByInvitationCode dir (jsTrim st.inviteCode) = c :: rest)
    (hu : st.user = some u) (hm : u.email ∉ c.members.getD [])
    (hw : env.updateRejects = false) :
    handleJoinWithCode env st dir =
      { state := { st with inviteCode := "", isJoining := false },
        directory := updateMembers dir c.id (c.members.getD [] ++ [u.email]),
        trace := [.filterCall (jsTrim st.inviteCode),
          .updateCall c.id (c.members.getD [] ++ [u.email]),
          .toastSuccess "Successfully joined the community!",
          .redirect (env.createPageUrl ("CommunityDetail?id=" ++ c.id))],
        outcome := .joined c.id } := by
  simp [handleJoinWithCode, hcode, hf, hl, hu, hm, hw]

theorem run_already_member (env : Env) (st : DashboardState) (dir : List Community)
    (c : Community) (rest : List Community) (u : User)
    (hcode : jsTrim st.inviteCode ≠ "") (hf : env.filterRejects = false)
    (hl : filterByInvitationCode dir (jsTrim st.inviteCode) = c :: rest)
    (hu : st.user = some u) (hm : u.email ∈ c.members.getD []) :
    handleJoinWithCode env st dir =
      { state := { st with inviteCode := "", isJoining := false },
        directory := dir,
        trace := [.filterCall (jsTrim st.inviteCode),
          .toastInfo "You are already a member of this community",
          .redirect (env.createPageUrl ("CommunityDetail?id=" ++ c.id))],
        outcome := .alreadyMember c.id } := by
  simp [handleJoinWithCode, hcode, hf, hl, hu, hm]

/-! ## The directory -/

theorem filterByInvitationCode_updateMembers (dir : List Community) (code id : String)
    (m : List String) :
    filterByInvitationCode (updateMembers dir id m) code =
      updateMembers (filterByInvitationCode dir code) id m := by
  induction dir with
  | nil => rfl
  | cons c t ih =>
    simp only [filterByInvitationCode, updateMembers] at ih ⊢
    by_cases hid : c.id = id <;> by_cases hc : c.invitation_code = some code <;>
      simp [List.filter_cons, hid, hc, ih]

theorem mem_of_filterByInvitationCode_eq_cons (dir : List Community) (code : String)
    (c : Community) (rest : List Community)
    (hl : filterByInvitationCode dir code = c :: rest) : c ∈ dir := by
  have : c ∈ filterByInvitationCode dir code := by rw [hl]; exact List.mem_cons_self _ _
  exact (List.mem_filter.mp this).1

theorem membersNodup_updateMembers (dir : List Community) (id : String) (m : List String)
    (hdir : MembersNodup dir) (hm : m.Nodup) : MembersNodup (updateMembers dir id m) := by
  intro c hc
  simp only [updateMembers, List.mem_map] at hc
  obtain ⟨c0, hc0, rfl⟩ := hc
  by_cases hid : c0.id = id
  · simpa [hid] using hm
  · simpa [hid] using hdir c0 hc0

/-- Every run follows exactly one of the seven paths of the handler. -/
theorem run_cases (env : Env) (st : DashboardState) (dir : List Community) :
    jsTrim st.inviteCode = "" ∨
    (jsTrim st.inviteCode ≠ "" ∧ env.filterRejects = true) ∨
    (jsTrim st.inviteCode ≠ "" ∧ env.filterRejects = false ∧
      filterByInvitationCode dir (jsTrim st.inviteCode) = []) ∨
    (∃ c rest, jsTrim st.inviteCode ≠ "" ∧ env.filterRejects = false ∧
      filterByInvitationCode dir (jsTrim st.inviteCode) = c :: rest ∧ st.user = none) ∨
    (∃ c rest u, jsTrim st.inviteCode ≠ "" ∧ env.filterRejects = false ∧
      filterByInvitationCode dir (jsTrim st.inviteCode) = c :: rest ∧ st.user = some u ∧
      u.email ∈ c.members.getD []) ∨
    (∃ c rest u, jsTrim st.inviteCode ≠ "" ∧ env.filterRejects = false ∧
      filterByInvitationCode dir (jsTrim st.inviteCode) = c :: rest ∧ st.user = some u ∧
      u.email ∉ c.members.getD [] ∧ env.updateRejects = true) ∨
    (∃ c rest u, jsTrim st.inviteCode ≠ "" ∧ env.filterRejects = false ∧
      filterByInvitationCode dir (jsTrim st.inviteCode) = c :: rest ∧ st.user = some u ∧
      u.email ∉ c.members.getD [] ∧ env.updateRejects = false) := by
  by_cases hcode : jsTrim st.inviteCode = ""
  · exact Or.inl hcode
  · right
    cases hf : env.filterRejects
    · right
      cases hl : filterByInvitationCode dir (jsTrim st.inviteCode) with
      | nil => exact Or.inl ⟨hcode, rfl, rfl⟩
      | cons c rest =>
        right
        cases hu : st.user with
        | none => exact Or.inl ⟨c, rest, hcode, rfl, rfl, rfl⟩
        | some u =>
          right
          by_cases hm : u.email ∈ c.members.getD []
          · exact Or.inl ⟨c, rest, u, hcode, rfl, rfl, rfl, hm⟩
          · right
            cases hw : env.updateRejects
            · exact Or.inr ⟨c, rest, u, hcode, rfl, rfl, rfl, hm, rfl⟩
            · exact Or.inl ⟨c, rest, u, hcode, rfl, rfl, rfl, hm, rfl⟩
    · exact Or.inl ⟨hcode, rfl⟩

/-- A run looks the trimmed code up once, unless the code is blank. -/
theorem lookupsOf_run (env : Env) (st : DashboardState) (dir : List Community) :
    lookupsOf (handleJoinWithCode env st dir).trace =
      if jsTrim st.inviteCode = "" then [] else [jsTrim st.inviteCode] := by
  rcases run_cases env st dir with hc | ⟨hc, hf⟩ | ⟨hc, hf, hl⟩ | ⟨c, rest, hc, hf, hl, hu⟩ |
    ⟨c, rest, u, hc, hf, hl, hu, hm⟩ | ⟨c, rest, u, hc, hf, hl, hu, hm, hw⟩ |
    ⟨c, rest, u, hc, hf, hl, hu, hm, hw⟩
  · rw [run_blank env st dir hc, if_pos hc]; rfl
  · rw [run_filter_rejected env st dir hc hf, if_neg hc]; rfl
  · rw [run_invalid env st dir hc hf hl, if_neg hc]; rfl
  · rw [run_no_user env st dir c rest hc hf hl hu, if_neg hc]; rfl
  · rw [run_already_member env st dir c rest u hc hf hl hu hm, if_neg hc]; rfl
  · rw [run_update_rejected env st dir c rest u hc hf hl hu hm hw, if_neg hc]; rfl
  · rw [run_joined env st dir c rest u hc hf hl hu hm hw, if_neg hc]; rfl

/-- A run issues at most one write. -/
theorem writesOf_run_length_le (env : Env) (st : DashboardState) (dir : List Community) :
    (writesOf (handleJoinWithCode env st dir).trace).length ≤ 1 := by
  rcases run_cases env st dir with hc | ⟨hc, hf⟩ | ⟨hc, hf, hl⟩ | ⟨c, rest, hc, hf, hl, hu⟩ |
    ⟨c, rest, u, hc, hf, hl, hu, hm⟩ | ⟨c, rest, u, hc, hf, hl, hu, hm, hw⟩ |
    ⟨c, rest, u, hc, hf, hl, hu, hm, hw⟩
  · rw [run_blank env st dir hc]; simp [writesOf]
  · rw [run_filter_rejected env st dir hc hf]; simp [writesOf]
  · rw [run_invalid env st dir hc hf hl]; simp [writesOf]
  · rw [run_no_user env st dir c rest hc hf hl hu]; simp [writesOf]
  · rw [run_already_member env st dir c rest u hc hf hl hu hm]; simp [writesOf]
  · rw [run_update_rejected env st dir c rest u hc hf hl hu hm hw]; simp [writesOf]
  · rw [run_joined env st dir c rest u hc hf hl hu hm hw]; simp [writesOf]

/-- Two component states with the same user and the same trimmed code give runs with
the same outcome, trace and directory. -/
theorem run_congr_trimmed (env : Env) (st st2 : DashboardState) (dir : List Community)
    (hu2 : st2.user = st.user) (ht : jsTrim st2.inviteCode = jsTrim st.inviteCode) :
    (handleJoinWithCode env st2 dir).outcome = (handleJoinWithCode env st dir).outcome ∧
      (handleJoinWithCode env st2 dir).trace = (handleJoinWithCode env st dir).trace ∧
      (handleJoinWithCode env st2 dir).directory =
        (handleJoinWithCode env st dir).directory := by
  rcases run_cases env st dir with hc | ⟨hc, hf⟩ | ⟨hc, hf, hl⟩ | ⟨c, rest, hc, hf, hl, hu⟩ |
    ⟨c, rest, u, hc, hf, hl, hu, hm⟩ | ⟨c, rest, u, hc, hf, hl, hu, hm, hw⟩ |
    ⟨c, rest, u, hc, hf, hl, hu, hm, hw⟩
  · rw [run_blank env st dir hc, run_blank env st2 dir (ht.trans hc)]
    exact ⟨rfl, rfl, rfl⟩
  · rw [run_filter_rejected env st dir hc hf,
      run_filter_rejected env st2 dir (by rw [ht]; exact hc) hf, ht]
    exact ⟨rfl, rfl, rfl⟩
  · rw [run_invalid env st dir hc hf hl,
      run_invalid env st2 dir (by rw [ht]; exact hc) hf (by rw [ht]; exact hl), ht]
    exact ⟨rfl, rfl, rfl⟩
  · rw [run_no_user env st dir c rest hc hf hl hu,
      run_no_user env st2 dir c rest (by rw [ht]; exact hc) hf (by rw [ht]; exact hl)
        (hu2.trans hu), ht]
    exact ⟨rfl, rfl, rfl⟩
  · rw [run_already_member env st dir c rest u hc hf hl hu hm,
      run_already_member env st2 dir c rest u (by rw [ht]; exact hc) hf
        (by rw [ht]; exact hl) (hu2.trans hu) hm, ht]
    exact ⟨rfl, rfl, rfl⟩
  · rw [run_update_rejected env st dir c rest u hc hf hl hu hm hw,
      run_update_rejected env st2 dir c rest u (by rw [ht]; exact hc) hf
        (by rw [ht]; exact hl) (hu2.trans hu) hm hw, ht]
    exact ⟨rfl, rfl, rfl⟩
  · rw [run_joined env st dir c rest u hc hf hl hu hm hw,
      run_joined env st2 dir c rest u (by rw [ht]; exact hc) hf (by rw [ht]; exact hl)
        (hu2.trans hu) hm hw, ht]
    exact ⟨rfl, rfl, rfl⟩

/-- Trimming the input beforehand changes neither the outcome, nor the trace, nor
the directory of a run. -/
theorem run_trimmed_input (env : Env) (st : DashboardState) (dir : List Community) :
    (handleJoinWithCode env { st with inviteCode := jsTrim st.inviteCode } dir).outcome =
        (handleJoinWithCode env st dir).outcome ∧
      (handleJoinWithCode env { st with inviteCode := jsTrim st.inviteCode } dir).trace =
        (handleJoinWithCode env st dir).trace ∧
      (handleJoinWithCode env { st with inviteCode := jsTrim st.inviteCode } dir).directory =
        (handleJoinWithCode env st dir).directory :=
  run_congr_trimmed env st { st with inviteCode := jsTrim st.inviteCode } dir rfl
    (jsTrim_idem _)

/-! ## The outcomes of a join -/

/-- C1: for a non-blank code whose lookup returns at least one community, and a user
whose email is absent from the member list of the first result (an absent `members`
field counting as empty), the run issues exactly one write, addressed to that
community's id, whose value is the prior member list with the email appended, so it
holds exactly the prior members and the email; once that write resolves the run
reports Joined: one success toast, one redirect to the page of that id, and the
directory holds the written list. -/
theorem C1_join_appends_member (env : Env) (st : DashboardState) (dir : List Community)
    (c : Community) (rest : List Community) (u : User)
    (hcode : jsTrim st.inviteCode ≠ "") (hf : env.filterRejects = false)
    (hl : filterByInvitationCode dir (jsTrim st.inviteCode) = c :: rest)
    (hu : st.user = some u) (hm : u.email ∉ c.members.getD []) :
    writesOf (handleJoinWithCode env st dir).trace =
        [(c.id, c.members.getD [] ++ [u.email])] ∧
      (∀ x, x ∈ c.members.getD [] ++ [u.email] ↔ x ∈ c.members.getD [] ∨ x = u.email) ∧
      (env.updateRejects = false →
        (handleJoinWithCode env st dir).outcome = .joined c.id ∧
        toastsOf (handleJoinWithCode env st dir).trace =
          [.toastSuccess "Successfully joined the community!"] ∧
        redirectsOf (handleJoinWithCode env st dir).trace =
          [env.createPageUrl ("CommunityDetail?id=" ++ c.id)] ∧
        (handleJoinWithCode env st dir).directory =
          updateMembers dir c.id (c.members.getD [] ++ [u.email])) := by
  refine ⟨?_, ?_, ?_⟩
  · cases hw : env.updateRejects
    · rw [run_joined env st dir c rest u hcode hf hl hu hm hw]; rfl
    · rw [run_update_rejected env st dir c rest u hcode hf hl hu hm hw]; rfl
  · intro x; simp
  · intro hw
    rw [run_joined env st dir c rest u hcode hf hl hu hm hw]
    exact ⟨rfl, rfl, rfl, rfl⟩

theorem C1_join_appends_member_witness :
    writesOf (handleJoinWithCode idEnv stBob dirABC).trace =
        [("c1", ["alice@x.com", "bob@x.com"])] ∧
      (handleJoinWithCode idEnv stBob dirABC).outcome = .joined "c1" ∧
      redirectsOf (handleJoinWithCode idEnv stBob dirABC).trace = ["CommunityDetail?id=c1"] ∧
      (handleJoinWithCode idEnv stBob dirABC).directory =
        [{ id := "c1", invitation_code := some "ABC123",
           members := some ["alice@x.com", "bob@x.com"] }] := by
  have h := C1_join_appends_member idEnv stBob dirABC
    { id := "c1", invitation_code := some "ABC123", members := some ["alice@x.com"] } []
    { email := "bob@x.com" } (by decide) rfl (by decide) rfl (by decide)
  exact ⟨h.1, (h.2.2 rfl).1, (h.2.2 rfl).2.2.1, by decide⟩

/-- C2 (as stated, refuted): with the blank code `""`, a directory whose first
community matching that code lists the user, the run stops at the guard of line 53:
it is a no-op and reports nothing, in particular not AlreadyMember. -/
theorem C2_counterexample_blank_code :
    filterByInvitationCode dirEmptyCode stAliceBlank.inviteCode =
        [{ id := "c1", invitation_code := some "", members := some ["alice@x.com"] }] ∧
      filterByInvitationCode dirEmptyCode (jsTrim stAliceBlank.inviteCode) =
        [{ id := "c1", invitation_code := some "", members := some ["alice@x.com"] }] ∧
      stAliceBlank.user = some (User.mk "alice@x.com") ∧
      "alice@x.com" ∈ ["alice@x.com"] ∧
      (handleJoinWithCode idEnv stAliceBlank dirEmptyCode).outcome ≠ .alreadyMember "c1" ∧
      (handleJoinWithCode idEnv stAliceBlank dirEmptyCode).outcome = .noop ∧
      (handleJoinWithCode idEnv stAliceBlank dirEmptyCode).trace = [] := by
  decide

/-- C2 (amended): for a non-blank code whose lookup returns at least one community
and a user whose email is already in the member list of the first result, the run
reports AlreadyMember for that community's id (one info toast, one redirect to the
page of that id), issues no write and leaves the directory unchanged. -/
theorem C2_already_member_no_write (env : Env) (st : DashboardState)
    (dir : List Community) (c : Community) (rest : List Community) (u : User)
    (hcode : jsTrim st.inviteCode ≠ "") (hf : env.filterRejects = false)
    (hl : filterByInvitationCode dir (jsTrim st.inviteCode) = c :: rest)
    (hu : st.user = some u) (hm : u.email ∈ c.members.getD []) :
    (handleJoinWithCode env st dir).outcome = .alreadyMember c.id ∧
      toastsOf (handleJoinWithCode env st dir).trace =
        [.toastInfo "You are already a member of this community"] ∧
      redirectsOf (handleJoinWithCode env st dir).trace =
        [env.createPageUrl ("CommunityDetail?id=" ++ c.id)] ∧
      writesOf (handleJoinWithCode env st dir).trace = [] ∧
      (handleJoinWithCode env st dir).directory = dir := by
  rw [run_already_member env st dir c rest u hcode hf hl hu hm]
  exact ⟨rfl, rfl, rfl, rfl, rfl⟩

theorem C2_already_member_no_write_witness :
    (handleJoinWithCode idEnv stAlice dirABC).outcome = .alreadyMember "c1" ∧
      toastsOf (handleJoinWithCode idEnv stAlice dirABC).trace =
        [.toastInfo "You are already a member of this community"] ∧
      redirectsOf (handleJoinWithCode idEnv stAlice dirABC).trace =
        ["CommunityDetail?id=c1"] ∧
      writesOf (handleJoinWithCode idEnv stAlice dirABC).trace = [] ∧
      (handleJoinWithCode idEnv stAlice dirABC).directory = dirABC :=
  C2_already_member_no_write idEnv stAlice dirABC
    { id := "c1", invitation_code := some "ABC123", members := some ["alice@x.com"] } []
    { email := "alice@x.com" } (by decide) rfl (by decide) rfl (by decide)

/-- C3: for a non-blank code whose lookup returns no community, and for every user
(a missing one included), the run reports InvalidCode with the error toast as its only
toast, issues no write, performs no redirect and leaves the directory unchanged. -/
theorem C3_invalid_code_no_write (env : Env) (st : DashboardState) (dir : List Community)
    (hcode : jsTrim st.inviteCode ≠ "") (hf : env.filterRejects = false)
    (hl : filterByInvitationCode dir (jsTrim st.inviteCode) = []) :
    (handleJoinWithCode env st dir).outcome = .invalidCode ∧
      toastsOf (handleJoinWithCode env st dir).trace =
        [.toastError "Invalid invitation code"] ∧
      writesOf (handleJoinWithCode env st dir).trace = [] ∧
      redirectsOf (handleJoinWithCode env st dir).trace = [] ∧
      (handleJoinWithCode env st dir).directory = dir := by
  rw [run_invalid env st dir hcode hf hl]
  exact ⟨rfl, rfl, rfl, rfl, rfl⟩

theorem C3_invalid_code_no_write_witness :
    (handleJoinWithCode idEnv stBobUnknown dirABC).outcome = .invalidCode ∧
      toastsOf (handleJoinWithCode idEnv stBobUnknown dirABC).trace =
        [.toastError "Invalid invitation code"] ∧
      writesOf (handleJoinWithCode idEnv stBobUnknown dirABC).trace = [] ∧
      redirectsOf (handleJoinWithCode idEnv stBobUnknown dirABC).trace = [] ∧
      (handleJoinWithCode idEnv stBobUnknown dirABC).directory = dirABC :=
  C3_invalid_code_no_write idEnv stBobUnknown dirABC (by decide) rfl (by decide)

/-- C4: idempotence.  For a non-blank code whose lookup returns at least one community
and a user not yet in the first result's member list, two runs in succession with the
same code and user (remote calls resolving) report Joined and then AlreadyMember for
the same id; the second run issues no write, and the directory after the second run,
hence the stored member list of every community, is the one left by the first run, in
which the first match for the code holds the prior list with the email appended. -/
theorem C4_join_twice_idempotent (env1 env2 : Env) (st : DashboardState)
    (dir : List Community) (c : Community) (rest : List Community) (u : User)
    (hcode : jsTrim st.inviteCode ≠ "")
    (hf1 : env1.filterRejects = false) (hw1 : env1.updateRejects = false)
    (hf2 : env2.filterRejects = false)
    (hl : filterByInvitationCode dir (jsTrim st.inviteCode) = c :: rest)
    (hu : st.user = some u) (hm : u.email ∉ c.members.getD []) :
    (joinTwice env1 env2 st dir).1.outcome = .joined c.id ∧
      (joinTwice env1 env2 st dir).2.outcome = .alreadyMember c.id ∧
      writesOf (joinTwice env1 env2 st dir).2.trace = [] ∧
      (joinTwice env1 env2 st dir).2.directory = (joinTwice env1 env2 st dir).1.directory ∧
      ((filterByInvitationCode (joinTwice env1 env2 st dir).2.directory
          (jsTrim st.inviteCode)).head?.map
        (fun c1 => c1.members)) = some (some (c.members.getD [] ++ [u.email])) := by
  have h1 := run_joined env1 st dir c rest u hcode hf1 hl hu hm hw1
  have hl2 : filterByInvitationCode
      (updateMembers dir c.id (c.members.getD [] ++ [u.email])) (jsTrim st.inviteCode) =
      { c with members := some (c.members.getD [] ++ [u.email]) } ::
        updateMembers rest c.id (c.members.getD [] ++ [u.email]) := by
    rw [filterByInvitationCode_updateMembers, hl]
    simp [updateMembers]
  have h2 := run_already_member env2
    { user := st.user, inviteCode := st.inviteCode, isJoining := false }
    (updateMembers dir c.id (c.members.getD [] ++ [u.email]))
    { c with members := some (c.members.getD [] ++ [u.email]) }
    (updateMembers rest c.id (c.members.getD [] ++ [u.email])) u hcode hf2 hl2 hu (by simp)
  have e1 : (joinTwice env1 env2 st dir).1 = handleJoinWithCode env1 st dir := rfl
  have e2 : (joinTwice env1 env2 st dir).2 = handleJoinWithCode env2
      { user := st.user, inviteCode := st.inviteCode, isJoining := false }
      (updateMembers dir c.id (c.members.getD [] ++ [u.email])) := by
    simp only [joinTwice, h1]
  rw [e1, e2, h1, h2]
  refine ⟨rfl, rfl, rfl, rfl, ?_⟩
  show ((filterByInvitationCode (updateMembers dir c.id (c.members.getD [] ++ [u.email]))
    (jsTrim st.inviteCode)).head?.map (fun c1 => c1.members)) = _
  rw [hl2]
  rfl

theorem C4_join_twice_idempotent_witness :
    (joinTwice idEnv idEnv stBob dirABC).1.outcome = .joined "c1" ∧
      (joinTwice idEnv idEnv stBob dirABC).2.outcome = .alreadyMember "c1" ∧
      writesOf (joinTwice idEnv idEnv stBob dirABC).2.trace = [] ∧
      (joinTwice idEnv idEnv stBob dirABC).2.directory =
        (joinTwice idEnv idEnv stBob dirABC).1.directory ∧
      ((filterByInvitationCode (joinTwice idEnv idEnv stBob dirABC).2.directory
          (jsTrim stBob.inviteCode)).head?.map
        (fun c1 => c1.members)) = some (some ["alice@x.com", "bob@x.com"]) :=
  C4_join_twice_idempotent idEnv idEnv stBob dirABC
    { id := "c1", invitation_code := some "ABC123", members := some ["alice@x.com"] } []
    { email := "bob@x.com" } (by decide) rfl rfl rfl (by decide) rfl (by decide)

/-- C5: membership invariant.  If no community of the directory lists an identifier
twice, then after any run of the handler, whatever its outcome and whether or not a
remote call rejects, no community of the resulting directory lists an identifier
twice. -/
theorem C5_members_nodup_preserved (env : Env) (st : DashboardState) (dir : List Community)
    (hdir : MembersNodup dir) : MembersNodup (handleJoinWithCode env st dir).directory := by
  rcases run_cases env st dir with h | ⟨h, hf⟩ | ⟨h, hf, hl⟩ | ⟨c, rest, h, hf, hl, hu⟩ |
    ⟨c, rest, u, h, hf, hl, hu, hm⟩ | ⟨c, rest, u, h, hf, hl, hu, hm, hw⟩ |
    ⟨c, rest, u, h, hf, hl, hu, hm, hw⟩
  · rw [run_blank env st dir h]; exact hdir
  · rw [run_filter_rejected env st dir h hf]; exact hdir
  · rw [run_invalid env st dir h hf hl]; exact hdir
  · rw [run_no_user env st dir c rest h hf hl hu]; exact hdir
  · rw [run_already_member env st dir c rest u h hf hl hu hm]; exact hdir
  · rw [run_update_rejected env st dir c rest u h hf hl hu hm hw]; exact hdir
  · rw [run_joined env st dir c rest u h hf hl hu hm hw]
    apply membersNodup_updateMembers _ _ _ hdir
    have hc := hdir c (mem_of_filterByInvitationCode_eq_cons dir _ c rest hl)
    exact List.nodup_append.mpr ⟨hc, List.nodup_singleton _, by simpa using hm⟩

theorem C5_members_nodup_preserved_witness :
    MembersNodup dirABC ∧ MembersNodup (handleJoinWithCode idEnv stBob dirABC).directory :=
  ⟨by decide, C5_members_nodup_preserved idEnv stBob dirABC (by decide)⟩

/-- C6 (as stated, refuted): the stored member list of the matched community repeats
an identifier, the user is not in it, the run reports Joined, and the member list it
writes still repeats that identifier. -/
theorem C6_counterexample_repeated_member :
    (handleJoinWithCode idEnv stBob dirRepeated).outcome = .joined "c1" ∧
      writesOf (handleJoinWithCode idEnv stBob dirRepeated).trace =
        [("c1", ["alice@x.com", "alice@x.com", "bob@x.com"])] ∧
      ¬ (["alice@x.com", "alice@x.com", "bob@x.com"] : List String).Nodup := by
  decide

/-- C6 (amended): the handler appends and does not de-duplicate.  Every member list
it writes is the stored list of the first community returned by the lookup (absent
counting as empty) followed by the user's email, written to that community's id; the
email was not in the stored list, so it occurs exactly once in the written list; and
the written list is free of repetitions exactly when the stored list was. -/
theorem C6_written_members_append_only (env : Env) (st : DashboardState)
    (dir : List Community) (id : String) (m : List String)
    (h : (id, m) ∈ writesOf (handleJoinWithCode env st dir).trace) :
    ∃ c rest u, filterByInvitationCode dir (jsTrim st.inviteCode) = c :: rest ∧
      st.user = some u ∧ id = c.id ∧ m = c.members.getD [] ++ [u.email] ∧
      u.email ∉ c.members.getD [] ∧ m.count u.email = 1 ∧
      (m.Nodup ↔ (c.members.getD []).Nodup) := by
  have key : ∀ (c : Community) (rest : List Community) (u : User),
      filterByInvitationCode dir (jsTrim st.inviteCode) = c :: rest → st.user = some u →
      u.email ∉ c.members.getD [] →
      (id, m) ∈ [(c.id, c.members.getD [] ++ [u.email])] →
      ∃ c rest u, filterByInvitationCode dir (jsTrim st.inviteCode) = c :: rest ∧
        st.user = some u ∧ id = c.id ∧ m = c.members.getD [] ++ [u.email] ∧
        u.email ∉ c.members.getD [] ∧ m.count u.email = 1 ∧
        (m.Nodup ↔ (c.members.getD []).Nodup) := by
    intro c rest u hl hu hm hmem
    simp only [List.mem_singleton, Prod.mk.injEq] at hmem
    obtain ⟨hid, hmv⟩ := hmem
    refine ⟨c, rest, u, hl, hu, hid, hmv, hm, ?_, ?_⟩
    · rw [hmv, List.count_append, List.count_eq_zero_of_not_mem hm]
      simp
    · rw [hmv, List.nodup_append]
      constructor
      · intro hn; exact hn.1
      · intro hn
        exact ⟨hn, List.nodup_singleton _, by simpa using hm⟩
  rcases run_cases env st dir with hc | ⟨hc, hf⟩ | ⟨hc, hf, hl⟩ | ⟨c, rest, hc, hf, hl, hu⟩ |
    ⟨c, rest, u, hc, hf, hl, hu, hm⟩ | ⟨c, rest, u, hc, hf, hl, hu, hm, hw⟩ |
    ⟨c, rest, u, hc, hf, hl, hu, hm, hw⟩
  · rw [run_blank env st dir hc] at h; simp [writesOf] at h
  · rw [run_filter_rejected env st dir hc hf] at h; simp [writesOf] at h
  · rw [run_invalid env st dir hc hf hl] at h; simp [writesOf] at h
  · rw [run_no_user env st dir c rest hc hf hl hu] at h; simp [writesOf] at h
  · rw [run_already_member env st dir c rest u hc hf hl hu hm] at h; simp [writesOf] at h
  · rw [run_update_rejected env st dir c rest u hc hf hl hu hm hw] at h
    exact key c rest u hl hu hm h
  · rw [run_joined env st dir c rest u hc hf hl hu hm hw] at h
    exact key c rest u hl hu hm h

theorem C6_written_members_append_only_witness :
    ∃ c rest u, filterByInvitationCode dirABC (jsTrim stBob.inviteCode) = c :: rest ∧
      stBob.user = some u ∧ "c1" = c.id ∧
      ["alice@x.com", "bob@x.com"] = c.members.getD [] ++ [u.email] ∧
      u.email ∉ c.members.getD [] ∧
      (["alice@x.com", "bob@x.com"] : List String).count u.email = 1 ∧
      ((["alice@x.com", "bob@x.com"] : List String).Nodup ↔ (c.members.getD []).Nodup) :=
  C6_written_members_append_only idEnv stBob dirABC "c1" ["alice@x.com", "bob@x.com"]
    (by decide)

/-- C7 (as stated, refuted): with no user and a non-blank code that matches no
community, the run ends normally with InvalidCode; no error is raised. -/
theorem C7_counterexample_no_user_invalid_code :
    stNoUserUnknown.user = none ∧
      (handleJoinWithCode idEnv stNoUserUnknown dirABC).outcome = .invalidCode ∧
      (∀ e, (handleJoinWithCode idEnv stNoUserUnknown dirABC).outcome ≠ .threw e) ∧
      toastsOf (handleJoinWithCode idEnv stNoUserUnknown dirABC).trace =
        [.toastError "Invalid invitation code"] := by
  refine ⟨rfl, by decide, ?_, by decide⟩
  intro e
  cases e <;> decide

/-- C7 (amended): when the component's user is null the handler never issues a write
and leaves the directory unchanged, whatever the code.  It ends with an exception
only if the code is non-blank and either the lookup rejects, or the lookup returns at
least one community: then reading `user.email` raises a TypeError after the lookup,
before any toast or redirect, with `isJoining` left true.  A non-blank code whose
lookup returns no community reports InvalidCode, and a blank code is a no-op. -/
theorem C7_no_user_no_write (env : Env) (st : DashboardState) (dir : List Community)
    (hu : st.user = none) :
    writesOf (handleJoinWithCode env st dir).trace = [] ∧
      (handleJoinWithCode env st dir).directory = dir ∧
      (jsTrim st.inviteCode = "" → (handleJoinWithCode env st dir).outcome = .noop) ∧
      (jsTrim st.inviteCode ≠ "" → env.filterRejects = true →
        (handleJoinWithCode env st dir).outcome = .threw .rejected) ∧
      (jsTrim st.inviteCode ≠ "" → env.filterRejects = false →
        filterByInvitationCode dir (jsTrim st.inviteCode) = [] →
        (handleJoinWithCode env st dir).outcome = .invalidCode) ∧
      (jsTrim st.inviteCode ≠ "" → env.filterRejects = false →
        filterByInvitationCode dir (jsTrim st.inviteCode) ≠ [] →
        (handleJoinWithCode env st dir).outcome = .threw .typeError ∧
        (handleJoinWithCode env st dir).trace = [.filterCall (jsTrim st.inviteCode)] ∧
        (handleJoinWithCode env st dir).state = { st with isJoining := true }) := by
  rcases run_cases env st dir with hc | ⟨hc, hf⟩ | ⟨hc, hf, hl⟩ | ⟨c, rest, hc, hf, hl, _⟩ |
    ⟨c, rest, u, hc, hf, hl, hu1, hm⟩ | ⟨c, rest, u, hc, hf, hl, hu1, hm, hw⟩ |
    ⟨c, rest, u, hc, hf, hl, hu1, hm, hw⟩
  · rw [run_blank env st dir hc]
    exact ⟨rfl, rfl, fun _ => rfl, fun h => absurd hc h, fun h => absurd hc h,
      fun h => absurd hc h⟩
  · rw [run_filter_rejected env st dir hc hf]
    refine ⟨rfl, rfl, fun h => absurd h hc, fun _ _ => rfl, ?_, ?_⟩
    · intro _ h; rw [hf] at h; cases h
    · intro _ h; rw [hf] at h; cases h
  · rw [run_invalid env st dir hc hf hl]
    refine ⟨rfl, rfl, fun h => absurd h hc, ?_, fun _ _ _ => rfl, ?_⟩
    · intro _ h; rw [hf] at h; cases h
    · intro _ _ h; exact absurd hl h
  · rw [run_no_user env st dir c rest hc hf hl hu]
    refine ⟨rfl, rfl, fun h => absurd h hc, ?_, ?_, fun _ _ _ => ⟨rfl, rfl, rfl⟩⟩
    · intro _ h; rw [hf] at h; cases h
    · intro _ _ h; rw [hl] at h; cases h
  · rw [hu] at hu1; cases hu1
  · rw [hu] at hu1; cases hu1
  · rw [hu] at hu1; cases hu1

theorem C7_no_user_no_write_witness :
    writesOf (handleJoinWithCode idEnv stNoUser dirABC).trace = [] ∧
      (handleJoinWithCode idEnv stNoUser dirABC).directory = dirABC ∧
      (handleJoinWithCode idEnv stNoUser dirABC).outcome = .threw .typeError ∧
      (handleJoinWithCode idEnv stNoUser dirABC).trace = [.filterCall "ABC123"] := by
  have h := C7_no_user_no_write idEnv stNoUser dirABC rfl
  have h4 := h.2.2.2.2.2 (by decide) rfl (by decide)
  exact ⟨h.1, h.2.1, h4.1, h4.2.1⟩

/-! ## Failures, blank codes and trimming -/

/-- C8: failure atomicity.  Every run issues at most one lookup and at most one write.
If the lookup rejects, the rejection leaves the handler, no write is issued and the
directory is unchanged.  If the write rejects, the rejection leaves the handler, that
single write attempt is the only write of the run, it follows the single lookup, and
the directory is unchanged. -/
theorem C8_failure_atomicity (env : Env) (st : DashboardState) (dir : List Community) :
    (lookupsOf (handleJoinWithCode env st dir).trace).length ≤ 1 ∧
      (writesOf (handleJoinWithCode env st dir).trace).length ≤ 1 ∧
      (jsTrim st.inviteCode ≠ "" → env.filterRejects = true →
        (handleJoinWithCode env st dir).outcome = .threw .rejected ∧
        lookupsOf (handleJoinWithCode env st dir).trace = [jsTrim st.inviteCode] ∧
        writesOf (handleJoinWithCode env st dir).trace = [] ∧
        (handleJoinWithCode env st dir).directory = dir) ∧
      (∀ c rest u, jsTrim st.inviteCode ≠ "" → env.filterRejects = false →
        filterByInvitationCode dir (jsTrim st.inviteCode) = c :: rest →
        st.user = some u → u.email ∉ c.members.getD [] → env.updateRejects = true →
        (handleJoinWithCode env st dir).outcome = .threw .rejected ∧
        (handleJoinWithCode env st dir).trace =
          [.filterCall (jsTrim st.inviteCode),
           .updateCall c.id (c.members.getD [] ++ [u.email])] ∧
        (handleJoinWithCode env st dir).directory = dir) := by
  refine ⟨?_, writesOf_run_length_le env st dir, ?_, ?_⟩
  · rw [lookupsOf_run]
    split <;> simp
  · intro hc hf
    rw [run_filter_rejected env st dir hc hf]
    exact ⟨rfl, rfl, rfl, rfl⟩
  · intro c rest u hc hf hl hu hm hw
    rw [run_update_rejected env st dir c rest u hc hf hl hu hm hw]
    exact ⟨rfl, rfl, rfl⟩

theorem C8_failure_atomicity_witness :
    ((handleJoinWithCode envFilterRejects stBob dirABC).outcome = .threw .rejected ∧
        writesOf (handleJoinWithCode envFilterRejects stBob dirABC).trace = [] ∧
        (handleJoinWithCode envFilterRejects stBob dirABC).directory = dirABC) ∧
      ((handleJoinWithCode envUpdateRejects stBob dirABC).outcome = .threw .rejected ∧
        (handleJoinWithCode envUpdateRejects stBob dirABC).trace =
          [.filterCall "ABC123", .updateCall "c1" ["alice@x.com", "bob@x.com"]] ∧
        (handleJoinWithCode envUpdateRejects stBob dirABC).directory = dirABC) := by
  have h1 := (C8_failure_atomicity envFilterRejects stBob dirABC).2.2.1 (by decide) rfl
  have h2 := (C8_failure_atomicity envUpdateRejects stBob dirABC).2.2.2
    { id := "c1", invitation_code := some "ABC123", members := some ["alice@x.com"] } []
    { email := "bob@x.com" } (by decide) rfl (by decide) rfl (by decide) rfl
  exact ⟨⟨h1.1, h1.2.2.1, h1.2.2.2⟩, h2⟩

/-- C9: for an input code that is empty or made only of white-space characters, the
run is a no-op: its trace is empty (no lookup, no write, no toast, no redirect), the
directory is unchanged and the component state, `inviteCode` and `isJoining`
included, is unchanged. -/
theorem C9_blank_code_noop (env : Env) (st : DashboardState) (dir : List Community)
    (hblank : ∀ ch ∈ st.inviteCode.data, isJsWhiteSpace ch = true) :
    handleJoinWithCode env st dir =
        { state := st, directory := dir, trace := [], outcome := .noop } ∧
      lookupsOf (handleJoinWithCode env st dir).trace = [] ∧
      writesOf (handleJoinWithCode env st dir).trace = [] ∧
      toastsOf (handleJoinWithCode env st dir).trace = [] ∧
      redirectsOf (handleJoinWithCode env st dir).trace = [] ∧
      (handleJoinWithCode env st dir).state.inviteCode = st.inviteCode ∧
      (handleJoinWithCode env st dir).state.isJoining = st.isJoining := by
  rw [run_blank env st dir ((jsTrim_eq_empty_iff _).mpr hblank)]
  exact ⟨rfl, rfl, rfl, rfl, rfl, rfl, rfl⟩

theorem C9_blank_code_noop_witness :
    handleJoinWithCode idEnv stWhite dirABC =
        { state := stWhite, directory := dirABC, trace := [], outcome := .noop } ∧
      (handleJoinWithCode idEnv stWhite dirABC).state.inviteCode = " \t\n " ∧
      (handleJoinWithCode idEnv stWhite dirABC).state.isJoining = false := by
  have h := C9_blank_code_noop idEnv stWhite dirABC (by decide)
  exact ⟨h.1, h.2.2.2.2.2.1, h.2.2.2.2.2.2⟩

/-- C10: the code looked up is exactly the trimmed input.  Running the handler on an
input gives the same outcome, the same trace (hence the same lookups, writes, toasts
and redirects) and the same directory as running it on the trimmed input; every lookup
of a run carries the trimmed input, and a non-blank input is looked up exactly once;
two inputs whose trimmed forms differ are looked up as different codes; and the lookup
compares codes exactly, so a code differing only in letter case is not matched. -/
theorem C10_lookup_uses_trimmed_code (env : Env) (st : DashboardState)
    (dir : List Community) :
    (handleJoinWithCode env { st with inviteCode := jsTrim st.inviteCode } dir).outcome =
        (handleJoinWithCode env st dir).outcome ∧
      (handleJoinWithCode env { st with inviteCode := jsTrim st.inviteCode } dir).trace =
        (handleJoinWithCode env st dir).trace ∧
      (handleJoinWithCode env { st with inviteCode := jsTrim st.inviteCode } dir).directory =
        (handleJoinWithCode env st dir).directory ∧
      (∀ q ∈ lookupsOf (handleJoinWithCode env st dir).trace, q = jsTrim st.inviteCode) ∧
      (jsTrim st.inviteCode ≠ "" →
        lookupsOf (handleJoinWithCode env st dir).trace = [jsTrim st.inviteCode]) ∧
      (∀ (env2 : Env) (st2 : DashboardState) (dir2 : List Community),
        jsTrim st.inviteCode ≠ "" → jsTrim st.inviteCode ≠ jsTrim st2.inviteCode →
        lookupsOf (handleJoinWithCode env st dir).trace ≠
          lookupsOf (handleJoinWithCode env2 st2 dir2).trace) ∧
      (∀ c ∈ filterByInvitationCode dir (jsTrim st.inviteCode),
        c.invitation_code = some (jsTrim st.inviteCode)) := by
  refine ⟨(run_trimmed_input env st dir).1, (run_trimmed_input env st dir).2.1,
    (run_trimmed_input env st dir).2.2, ?_, ?_, ?_, ?_⟩
  · intro q hq
    rw [lookupsOf_run] at hq
    split at hq <;> simp_all
  · intro hc
    rw [lookupsOf_run, if_neg hc]
  · intro env2 st2 dir2 hc hne
    rw [lookupsOf_run, lookupsOf_run, if_neg hc]
    split <;> simp [hne]
  · intro c hc
    simpa [filterByInvitationCode] using (List.mem_filter.mp hc).2

theorem C10_lookup_uses_trimmed_code_witness :
    lookupsOf (handleJoinWithCode idEnv stBob dirABC).trace = ["ABC123"] ∧
      lookupsOf (handleJoinWithCode idEnv stBob dirABC).trace ≠
        lookupsOf (handleJoinWithCode idEnv stBobLower dirABC).trace ∧
      (handleJoinWithCode idEnv stBobLower dirABC).outcome = .invalidCode := by
  have h := C10_lookup_uses_trimmed_code idEnv stBob dirABC
  exact ⟨h.2.2.2.2.1 (by decide),
    h.2.2.2.2.2.1 idEnv stBobLower dirABC (by decide) (by decide), by decide⟩

/-! ## Tie-break and frame -/

theorem getElem?_updateMembers (dir : List Community) (id : String) (m : List String)
    (i : Nat) :
    (updateMembers dir id m)[i]? =
      (dir[i]?).map (fun c => if c.id = id then { c with members := some m } else c) := by
  simp [updateMembers]

/-- Whatever the path, a run leaves the directory as it was or overwrites the members
stored under the id of the first result of its lookup. -/
theorem run_directory_cases (env : Env) (st : DashboardState) (dir : List Community)
    (c : Community) (rest : List Community)
    (hl : filterByInvitationCode dir (jsTrim st.inviteCode) = c :: rest) :
    (handleJoinWithCode env st dir).directory = dir ∨
      ∃ m, (handleJoinWithCode env st dir).directory = updateMembers dir c.id m := by
  rcases run_cases env st dir with hc | ⟨hc, hf⟩ | ⟨hc, hf, hl0⟩ | ⟨c1, r1, hc, hf, hl1, hu⟩ |
    ⟨c1, r1, u, hc, hf, hl1, hu, hm⟩ | ⟨c1, r1, u, hc, hf, hl1, hu, hm, hw⟩ |
    ⟨c1, r1, u, hc, hf, hl1, hu, hm, hw⟩
  · rw [run_blank env st dir hc]; exact Or.inl rfl
  · rw [run_filter_rejected env st dir hc hf]; exact Or.inl rfl
  · rw [run_invalid env st dir hc hf hl0]; exact Or.inl rfl
  · rw [run_no_user env st dir c1 r1 hc hf hl1 hu]; exact Or.inl rfl
  · rw [run_already_member env st dir c1 r1 u hc hf hl1 hu hm]; exact Or.inl rfl
  · rw [run_update_rejected env st dir c1 r1 u hc hf hl1 hu hm hw]; exact Or.inl rfl
  · rw [run_joined env st dir c1 r1 u hc hf hl1 hu hm hw]
    rw [hl] at hl1
    cases hl1
    exact Or.inr ⟨_, rfl⟩

/-- C11: tie-break and frame.  When the lookup of a non-blank code resolves with one or
more communities, the handler acts on the first one only, which is the first
community of the directory carrying the code.  The membership test reads that
community's member list: if it lists the user the run reports AlreadyMember for its id
and redirects to it without writing; otherwise the single write goes to its id with its
member list extended, and once the write resolves the run reports Joined for its id
and redirects to it.  The directory keeps its length and order, every record keeps
its id and invitation code, and every community with another id, those sharing the
code included, is left exactly as it was; with ids identifying records, every record
other than the first result is left as it was. -/
theorem C11_first_result_only (env : Env) (st : DashboardState) (dir : List Community)
    (c : Community) (rest : List Community) (u : User)
    (hcode : jsTrim st.inviteCode ≠ "") (hf : env.filterRejects = false)
    (hl : filterByInvitationCode dir (jsTrim st.inviteCode) = c :: rest)
    (hu : st.user = some u) :
    (∃ before after, dir = before ++ c :: after ∧
        ∀ d ∈ before, d.invitation_code ≠ some (jsTrim st.inviteCode)) ∧
      (u.email ∈ c.members.getD [] →
        (handleJoinWithCode env st dir).outcome = .alreadyMember c.id ∧
        writesOf (handleJoinWithCode env st dir).trace = [] ∧
        redirectsOf (handleJoinWithCode env st dir).trace =
          [env.createPageUrl ("CommunityDetail?id=" ++ c.id)]) ∧
      (u.email ∉ c.members.getD [] →
        writesOf (handleJoinWithCode env st dir).trace =
          [(c.id, c.members.getD [] ++ [u.email])] ∧
        (env.updateRejects = false →
          (handleJoinWithCode env st dir).outcome = .joined c.id ∧
          redirectsOf (handleJoinWithCode env st dir).trace =
            [env.createPageUrl ("CommunityDetail?id=" ++ c.id)])) ∧
      (handleJoinWithCode env st dir).directory.length = dir.length ∧
      (∀ (i : Nat) (d : Community), dir[i]? = some d → ∃ d2 : Community, (handleJoinWithCode env st dir).directory[i]? = some d2 ∧
        d2.id = d.id ∧ d2.invitation_code = d.invitation_code) ∧
      (∀ (i : Nat) (d : Community), dir[i]? = some d → d.id ≠ c.id →
        (handleJoinWithCode env st dir).directory[i]? = some d) ∧
      ((dir.map (fun d => d.id)).Nodup → ∀ (i : Nat) (d : Community), dir[i]? = some d → d ≠ c →
        (handleJoinWithCode env st dir).directory[i]? = some d) := by
  have hframe : ∀ (i : Nat) (d : Community), dir[i]? = some d → d.id ≠ c.id →
      (handleJoinWithCode env st dir).directory[i]? = some d := by
    intro i d hd hne
    rcases run_directory_cases env st dir c rest hl with h | ⟨m, h⟩
    · rw [h]; exact hd
    · rw [h, getElem?_updateMembers, hd]
      simp [hne]
  refine ⟨?_, ?_, ?_, ?_, ?_, hframe, ?_⟩
  · obtain ⟨l₁, l₂, hdir, hpre, _, _⟩ := List.filter_eq_cons_iff.mp hl
    exact ⟨l₁, l₂, hdir, fun d hd => by simpa using hpre d hd⟩
  · intro hm
    rw [run_already_member env st dir c rest u hcode hf hl hu hm]
    exact ⟨rfl, rfl, rfl⟩
  · intro hm
    refine ⟨?_, ?_⟩
    · cases hw : env.updateRejects
      · rw [run_joined env st dir c rest u hcode hf hl hu hm hw]; rfl
      · rw [run_update_rejected env st dir c rest u hcode hf hl hu hm hw]; rfl
    · intro hw
      rw [run_joined env st dir c rest u hcode hf hl hu hm hw]
      exact ⟨rfl, rfl⟩
  · rcases run_directory_cases env st dir c rest hl with h | ⟨m, h⟩
    · rw [h]
    · rw [h]; simp [updateMembers]
  · intro i d hd
    rcases run_directory_cases env st dir c rest hl with h | ⟨m, h⟩
    · rw [h]; exact ⟨d, hd, rfl, rfl⟩
    · rw [h, getElem?_updateMembers, hd]
      by_cases hid : d.id = c.id
      · exact ⟨{ d with members := some m }, by simp [hid], rfl, rfl⟩
      · exact ⟨d, by simp [hid], rfl, rfl⟩
  · intro hnd i d hd hne
    apply hframe i d hd
    intro hid
    have hdmem : d ∈ dir := List.mem_iff_getElem?.mpr ⟨i, hd⟩
    have hcmem : c ∈ dir := mem_of_filterByInvitationCode_eq_cons dir _ c rest hl
    exact hne (List.inj_on_of_nodup_map hnd hdmem hcmem hid)

theorem C11_first_result_only_witness :
    (handleJoinWithCode idEnv stBobDup dirDuplicateCode).outcome = .joined "c1" ∧
      writesOf (handleJoinWithCode idEnv stBobDup dirDuplicateCode).trace =
        [("c1", ["alice@x.com", "bob@x.com"])] ∧
      redirectsOf (handleJoinWithCode idEnv stBobDup dirDuplicateCode).trace =
        ["CommunityDetail?id=c1"] ∧
      (handleJoinWithCode idEnv stBobDup dirDuplicateCode).directory[1]? =
        some { id := "c2", invitation_code := some "DUP", members := some ["bob@x.com"] } ∧
      (handleJoinWithCode idEnv stBobDup dirDuplicateCode).directory[2]? =
        some { id := "c3", invitation_code := some "OTHER", members := none } := by
  have h := C11_first_result_only idEnv stBobDup dirDuplicateCode
    { id := "c1", invitation_code := some "DUP", members := some ["alice@x.com"] }
    [{ id := "c2", invitation_code := some "DUP", members := some ["bob@x.com"] }]
    { email := "bob@x.com" } (by decide) rfl (by decide) rfl
  have hj := h.2.2.1 (by decide)
  exact ⟨(hj.2 rfl).1, hj.1, (hj.2 rfl).2,
    h.2.2.2.2.2.1 1 _ (by decide) (by decide),
    h.2.2.2.2.2.2 (by decide) 2 _ (by decide) (by decide)⟩

/-! ## The profile form -/

/-- C12: the name is not part of what the profile screen saves.  For every form state,
and whether or not the call resolves, `handleSave` issues exactly one `updateMe`
whose payload has exactly the fields `phone_number`, `allergies`, `notes` and
`avatar_url`, each holding the form's current value; `full_name` is not among its
fields, the payload does not depend on the form's `full_name`, and the form itself is
left as it was. -/
theorem C12_save_payload_excludes_name (updateMeRejects : Bool) (st : ProfileState) :
    (∃ p, payloadsOf (handleSave updateMeRejects st).trace = [p] ∧
        p.map Prod.fst = ["phone_number", "allergies", "notes", "avatar_url"] ∧
        "full_name" ∉ p.map Prod.fst ∧
        p.lookup "full_name" = none ∧
        p.lookup "phone_number" = some (.str st.formData.phone_number) ∧
        p.lookup "allergies" = some (.strs st.formData.allergies) ∧
        p.lookup "notes" = some (.str st.formData.notes) ∧
        p.lookup "avatar_url" = some (.str st.formData.avatar_url)) ∧
      (∀ name : String,
        payloadsOf (handleSave updateMeRejects
            { st with formData := { st.formData with full_name := name } }).trace =
          payloadsOf (handleSave updateMeRejects st).trace) ∧
      (handleSave updateMeRejects st).state.formData = st.formData := by
  have hkeys : "full_name" ∉
      (["phone_number", "allergies", "notes", "avatar_url"] : List String) := by decide
  cases updateMeRejects
  · exact ⟨⟨_, rfl, rfl, hkeys, rfl, rfl, rfl, rfl, rfl⟩, fun _ => rfl, rfl⟩
  · exact ⟨⟨_, rfl, rfl, hkeys, rfl, rfl, rfl, rfl, rfl⟩, fun _ => rfl, rfl⟩

/-- C14: `addAllergy` keeps the allergy list free of repetitions and changes nothing
else.  If the trimmed input is empty or already in the list, the whole component
state, form and input included, is unchanged.  Otherwise the new list is the old one
with the trimmed input appended, every other form field and every other piece of
state is unchanged, and the input is cleared.  Hence a list without repetitions stays
without repetitions. -/
theorem C14_addAllergy_appends_new_only (st : ProfileState) :
    ((jsTrim st.newAllergy = "" ∨ jsTrim st.newAllergy ∈ st.formData.allergies) →
        addAllergy st = st) ∧
      (jsTrim st.newAllergy ≠ "" → jsTrim st.newAllergy ∉ st.formData.allergies →
        (addAllergy st).formData.allergies =
          st.formData.allergies ++ [jsTrim st.newAllergy] ∧
        (addAllergy st).formData.full_name = st.formData.full_name ∧
        (addAllergy st).formData.phone_number = st.formData.phone_number ∧
        (addAllergy st).formData.notes = st.formData.notes ∧
        (addAllergy st).formData.avatar_url = st.formData.avatar_url ∧
        (addAllergy st).newAllergy = "" ∧
        (addAllergy st).user = st.user ∧
        (addAllergy st).isSaving = st.isSaving ∧
        (addAllergy st).isUploading = st.isUploading) ∧
      (st.formData.allergies.Nodup → (addAllergy st).formData.allergies.Nodup) := by
  refine ⟨?_, ?_, ?_⟩
  · rintro (h | h)
    · simp [addAllergy, h]
    · simp [addAllergy, h]
  · intro h1 h2
    simp [addAllergy, h1, h2]
  · intro hnd
    by_cases h : jsTrim st.newAllergy ≠ "" ∧ jsTrim st.newAllergy ∉ st.formData.allergies
    · have hadd : (addAllergy st).formData.allergies =
          st.formData.allergies ++ [jsTrim st.newAllergy] := by
        simp [addAllergy, h.1, h.2]
      rw [hadd]
      exact List.nodup_append.mpr ⟨hnd, List.nodup_singleton _, by simpa using h.2⟩
    · have hsame : addAllergy st = st := by
        simp only [not_and_or, not_not] at h
        rcases h with h | h
        · simp [addAllergy, h]
        · simp [addAllergy, h]
      rw [hsame]
      exact hnd

theorem C14_addAllergy_appends_new_only_witness :
    addAllergy profileDup = profileDup ∧
      (addAllergy profileNuts).formData.allergies = ["peanuts", "gluten", "soy"] ∧
      (addAllergy profileNuts).formData.full_name = "Bob" ∧
      (addAllergy profileNuts).newAllergy = "" ∧
      (addAllergy profileNuts).formData.allergies.Nodup := by
  have h1 := (C14_addAllergy_appends_new_only profileDup).1 (Or.inr (by decide))
  have h2 := (C14_addAllergy_appends_new_only profileNuts).2.1 (by decide) (by decide)
  have h3 := (C14_addAllergy_appends_new_only profileNuts).2.2 (by decide)
  exact ⟨h1, h2.1, h2.2.1, h2.2.2.2.2.2.1, h3⟩

/-- C15: `removeAllergy` removes every occurrence of the given allergy, keeps the other
entries, each as often as before and in their original order, and leaves every other
form field and the rest of the state unchanged.  In particular, when the trimmed
input is non-empty and not in the list, removing it after `addAllergy` added it gives
back the original list, indeed the original form. -/
theorem C15_removeAllergy_inverts_add (allergy : String) (st : ProfileState) :
    allergy ∉ (removeAllergy allergy st).formData.allergies ∧
      (removeAllergy allergy st).formData.allergies.Sublist st.formData.allergies ∧
      (∀ a : String, a ≠ allergy →
        (removeAllergy allergy st).formData.allergies.count a =
          st.formData.allergies.count a) ∧
      (removeAllergy allergy st).formData.full_name = st.formData.full_name ∧
      (removeAllergy allergy st).formData.phone_number = st.formData.phone_number ∧
      (removeAllergy allergy st).formData.notes = st.formData.notes ∧
      (removeAllergy allergy st).formData.avatar_url = st.formData.avatar_url ∧
      (removeAllergy allergy st).newAllergy = st.newAllergy ∧
      (removeAllergy allergy st).user = st.user ∧
      (removeAllergy allergy st).isSaving = st.isSaving ∧
      (removeAllergy allergy st).isUploading = st.isUploading ∧
      (jsTrim st.newAllergy ≠ "" → jsTrim st.newAllergy ∉ st.formData.allergies →
        (removeAllergy (jsTrim st.newAllergy) (addAllergy st)).formData.allergies =
          st.formData.allergies ∧
        (removeAllergy (jsTrim st.newAllergy) (addAllergy st)).formData = st.formData) := by
  refine ⟨?_, ?_, ?_, rfl, rfl, rfl, rfl, rfl, rfl, rfl, rfl, ?_⟩
  · simp [removeAllergy]
  · exact List.filter_sublist _
  · intro a ha
    exact List.count_filter (by simpa using ha)
  · intro h1 h2
    have hfilter : (st.formData.allergies ++ [jsTrim st.newAllergy]).filter
        (fun a => decide (a ≠ jsTrim st.newAllergy)) = st.formData.allergies := by
      rw [List.filter_append]
      have hl : st.formData.allergies.filter (fun a => decide (a ≠ jsTrim st.newAllergy)) =
          st.formData.allergies := by
        apply List.filter_eq_self.mpr
        intro a ha
        have : a ≠ jsTrim st.newAllergy := fun e => h2 (e ▸ ha)
        simpa using this
      rw [hl]
      simp
    have hadd : (addAllergy st).formData =
        { st.formData with allergies := st.formData.allergies ++ [jsTrim st.newAllergy] } := by
      simp [addAllergy, h1, h2]
    have hrem : (removeAllergy (jsTrim st.newAllergy) (addAllergy st)).formData =
        st.formData := by
      simp only [removeAllergy, hadd, hfilter]
    exact ⟨by rw [hrem], hrem⟩

theorem C15_removeAllergy_inverts_add_witness :
    (removeAllergy "soy" (addAllergy profileNuts)).formData.allergies =
        ["peanuts", "gluten"] ∧
      (removeAllergy "soy" (addAllergy profileNuts)).formData = formNuts := by
  have h := (C15_removeAllergy_inverts_add "soy" profileNuts).2.2.2.2.2.2.2.2.2.2.2
    (by decide) (by decide)
  exact h

/-! ## Interleaved joins and the `isJoining` flag -/

/-- The split at the await is faithful: a run whose lookup resolves is the second
phase resumed, on the same directory, with what the lookup resolved with. -/
theorem handleJoinWithCode_eq_resumeAfterLookup (env : Env) (st : DashboardState)
    (dir : List Community) (communities : List Community)
    (h : lookupPhase env st dir = some communities) :
    handleJoinWithCode env st dir = resumeAfterLookup env st communities dir := by
  unfold lookupPhase at h
  by_cases hc : jsTrim st.inviteCode = ""
  · simp [hc] at h
  · cases hf : env.filterRejects
    · simp only [hc, hf, if_false, Bool.false_eq_true, Option.some.injEq] at h
      subst h
      simp only [handleJoinWithCode, resumeAfterLookup, hc, hf, if_false, Bool.false_eq_true]
    · simp [hc, hf] at h

/-- A run that does not get past its lookup writes nothing. -/
theorem writesOf_of_lookupPhase_eq_none (env : Env) (st : DashboardState)
    (dir : List Community) (h : lookupPhase env st dir = none) :
    writesOf (handleJoinWithCode env st dir).trace = [] ∧
      (handleJoinWithCode env st dir).directory = dir := by
  unfold lookupPhase at h
  by_cases hc : jsTrim st.inviteCode = ""
  · rw [run_blank env st dir hc]; exact ⟨rfl, rfl⟩
  · cases hf : env.filterRejects
    · simp [hc, hf] at h
    · rw [run_filter_rejected env st dir hc hf]; exact ⟨rfl, rfl⟩

/-- C13: lost update under interleaving.  There are a directory, a community and two
distinct users, neither yet a member, with an interleaving of their two runs, both
lookups resolving before either write lands, in which both runs report Joined for the
community, each having written the list it read plus its own email; the list finally
stored is the one written last and does not contain the user added by the earlier
write, which the directory did hold after that earlier write.  Run one after the
other instead, the same two joins keep both users. -/
theorem C13_lost_update_interleaving :
    ∃ (dir : List Community) (c : Community) (stA stB : DashboardState) (uA uB : User)
      (rA rB : Run),
      stA.user = some uA ∧ stB.user = some uB ∧ uA.email ≠ uB.email ∧
      filterByInvitationCode dir (jsTrim stA.inviteCode) = [c] ∧
      filterByInvitationCode dir (jsTrim stB.inviteCode) = [c] ∧
      uA.email ∉ c.members.getD [] ∧ uB.email ∉ c.members.getD [] ∧
      interleavedJoins idEnv idEnv stA stB dir = some (rA, rB) ∧
      rA = handleJoinWithCode idEnv stA dir ∧
      rA.outcome = .joined c.id ∧ rB.outcome = .joined c.id ∧
      writesOf rA.trace = [(c.id, c.members.getD [] ++ [uA.email])] ∧
      writesOf rB.trace = [(c.id, c.members.getD [] ++ [uB.email])] ∧
      storedMembers rA.directory c.id = some (c.members.getD [] ++ [uA.email]) ∧
      storedMembers rB.directory c.id = some (c.members.getD [] ++ [uB.email]) ∧
      uA.email ∉ c.members.getD [] ++ [uB.email] ∧
      storedMembers
          (handleJoinWithCode idEnv stB (handleJoinWithCode idEnv stA dir).directory).directory
          c.id = some (c.members.getD [] ++ [uA.email, uB.email]) := by
  refine ⟨dirABC,
    { id := "c1", invitation_code := some "ABC123", members := some ["alice@x.com"] },
    stBob, stCarol, { email := "bob@x.com" }, { email := "carol@x.com" },
    handleJoinWithCode idEnv stBob dirABC,
    resumeAfterLookup idEnv stCarol dirABC (handleJoinWithCode idEnv stBob dirABC).directory,
    ?_⟩
  decide

/-- C16: the `isJoining` flag and the code input at the end of a run on a non-blank
code.  A run that ends without an exception reports InvalidCode, Joined or
AlreadyMember and leaves `isJoining` false; the input is cleared on Joined and
AlreadyMember and kept on InvalidCode, so it is cleared exactly on those two paths.  A
run that ends with an exception leaves `isJoining` true and the input unchanged, and
this is what happens whenever the lookup rejects, the membership test reads the email
of a null user, or the write rejects. -/
theorem C16_isJoining_reset_only_without_failure (env : Env) (st : DashboardState)
    (dir : List Community) (hcode : jsTrim st.inviteCode ≠ "") :
    ((handleJoinWithCode env st dir).outcome = .invalidCode →
        (handleJoinWithCode env st dir).state.isJoining = false ∧
        (handleJoinWithCode env st dir).state.inviteCode = st.inviteCode) ∧
      (∀ id, ((handleJoinWithCode env st dir).outcome = .joined id ∨
          (handleJoinWithCode env st dir).outcome = .alreadyMember id) →
        (handleJoinWithCode env st dir).state.isJoining = false ∧
        (handleJoinWithCode env st dir).state.inviteCode = "") ∧
      (∀ e, (handleJoinWithCode env st dir).outcome = .threw e →
        (handleJoinWithCode env st dir).state.isJoining = true ∧
        (handleJoinWithCode env st dir).state.inviteCode = st.inviteCode) ∧
      (handleJoinWithCode env st dir).outcome ≠ .noop ∧
      ((handleJoinWithCode env st dir).state.inviteCode = "" ↔
        ∃ id, (handleJoinWithCode env st dir).outcome = .joined id ∨
          (handleJoinWithCode env st dir).outcome = .alreadyMember id) ∧
      (env.filterRejects = true →
        (handleJoinWithCode env st dir).outcome = .threw .rejected) ∧
      (env.filterRejects = false →
        filterByInvitationCode dir (jsTrim st.inviteCode) ≠ [] → st.user = none →
        (handleJoinWithCode env st dir).outcome = .threw .typeError) ∧
      (∀ c rest u, env.filterRejects = false →
        filterByInvitationCode dir (jsTrim st.inviteCode) = c :: rest → st.user = some u →
        u.email ∉ c.members.getD [] → env.updateRejects = true →
        (handleJoinWithCode env st dir).outcome = .threw .rejected) := by
  have hne : st.inviteCode ≠ "" := by
    intro h
    apply hcode
    rw [h]
    decide
  refine ⟨?_, ?_, ?_, ?_, ?_, ?_, ?_, ?_⟩
  · rcases run_cases env st dir with hc | ⟨hc, hf⟩ | ⟨hc, hf, hl⟩ | ⟨c, rest, hc, hf, hl, hu⟩ |
      ⟨c, rest, u, hc, hf, hl, hu, hm⟩ | ⟨c, rest, u, hc, hf, hl, hu, hm, hw⟩ |
      ⟨c, rest, u, hc, hf, hl, hu, hm, hw⟩
    · exact absurd hc hcode
    · rw [run_filter_rejected env st dir hc hf]; intro h; cases h
    · rw [run_invalid env st dir hc hf hl]; intro _; exact ⟨rfl, rfl⟩
    · rw [run_no_user env st dir c rest hc hf hl hu]; intro h; cases h
    · rw [run_already_member env st dir c rest u hc hf hl hu hm]; intro h; cases h
    · rw [run_update_rejected env st dir c rest u hc hf hl hu hm hw]; intro h; cases h
    · rw [run_joined env st dir c rest u hc hf hl hu hm hw]; intro h; cases h
  · intro id
    rcases run_cases env st dir with hc | ⟨hc, hf⟩ | ⟨hc, hf, hl⟩ | ⟨c, rest, hc, hf, hl, hu⟩ |
      ⟨c, rest, u, hc, hf, hl, hu, hm⟩ | ⟨c, rest, u, hc, hf, hl, hu, hm, hw⟩ |
      ⟨c, rest, u, hc, hf, hl, hu, hm, hw⟩
    · exact absurd hc hcode
    · rw [run_filter_rejected env st dir hc hf]; rintro (h | h) <;> cases h
    · rw [run_invalid env st dir hc hf hl]; rintro (h | h) <;> cases h
    · rw [run_no_user env st dir c rest hc hf hl hu]; rintro (h | h) <;> cases h
    · rw [run_already_member env st dir c rest u hc hf hl hu hm]; intro _; exact ⟨rfl, rfl⟩
    · rw [run_update_rejected env st dir c rest u hc hf hl hu hm hw]
      rintro (h | h) <;> cases h
    · rw [run_joined env st dir c rest u hc hf hl hu hm hw]; intro _; exact ⟨rfl, rfl⟩
  · intro e
    rcases run_cases env st dir with hc | ⟨hc, hf⟩ | ⟨hc, hf, hl⟩ | ⟨c, rest, hc, hf, hl, hu⟩ |
      ⟨c, rest, u, hc, hf, hl, hu, hm⟩ | ⟨c, rest, u, hc, hf, hl, hu, hm, hw⟩ |
      ⟨c, rest, u, hc, hf, hl, hu, hm, hw⟩
    · exact absurd hc hcode
    · rw [run_filter_rejected env st dir hc hf]; intro _; exact ⟨rfl, rfl⟩
    · rw [run_invalid env st dir hc hf hl]; intro h; cases h
    · rw [run_no_user env st dir c rest hc hf hl hu]; intro _; exact ⟨rfl, rfl⟩
    · rw [run_already_member env st dir c rest u hc hf hl hu hm]; intro h; cases h
    · rw [run_update_rejected env st dir c rest u hc hf hl hu hm hw]; intro _; exact ⟨rfl, rfl⟩
    · rw [run_joined env st dir c rest u hc hf hl hu hm hw]; intro h; cases h
  · rcases run_cases env st dir with hc | ⟨hc, hf⟩ | ⟨hc, hf, hl⟩ | ⟨c, rest, hc, hf, hl, hu⟩ |
      ⟨c, rest, u, hc, hf, hl, hu, hm⟩ | ⟨c, rest, u, hc, hf, hl, hu, hm, hw⟩ |
      ⟨c, rest, u, hc, hf, hl, hu, hm, hw⟩
    · exact absurd hc hcode
    · rw [run_filter_rejected env st dir hc hf]; intro h; cases h
    · rw [run_invalid env st dir hc hf hl]; intro h; cases h
    · rw [run_no_user env st dir c rest hc hf hl hu]; intro h; cases h
    · rw [run_already_member env st dir c rest u hc hf hl hu hm]; intro h; cases h
    · rw [run_update_rejected env st dir c rest u hc hf hl hu hm hw]; intro h; cases h
    · rw [run_joined env st dir c rest u hc hf hl hu hm hw]; intro h; cases h
  · rcases run_cases env st dir with hc | ⟨hc, hf⟩ | ⟨hc, hf, hl⟩ | ⟨c, rest, hc, hf, hl, hu⟩ |
      ⟨c, rest, u, hc, hf, hl, hu, hm⟩ | ⟨c, rest, u, hc, hf, hl, hu, hm, hw⟩ |
      ⟨c, rest, u, hc, hf, hl, hu, hm, hw⟩
    · exact absurd hc hcode
    · rw [run_filter_rejected env st dir hc hf]
      exact ⟨fun h => absurd h hne, fun ⟨_, h⟩ => by rcases h with h | h <;> cases h⟩
    · rw [run_invalid env st dir hc hf hl]
      exact ⟨fun h => absurd h hne, fun ⟨_, h⟩ => by rcases h with h | h <;> cases h⟩
    · rw [run_no_user env st dir c rest hc hf hl hu]
      exact ⟨fun h => absurd h hne, fun ⟨_, h⟩ => by rcases h with h | h <;> cases h⟩
    · rw [run_already_member env st dir c rest u hc hf hl hu hm]
      exact ⟨fun _ => ⟨c.id, Or.inr rfl⟩, fun _ => rfl⟩
    · rw [run_update_rejected env st dir c rest u hc hf hl hu hm hw]
      exact ⟨fun h => absurd h hne, fun ⟨_, h⟩ => by rcases h with h | h <;> cases h⟩
    · rw [run_joined env st dir c rest u hc hf hl hu hm hw]
      exact ⟨fun _ => ⟨c.id, Or.inl rfl⟩, fun _ => rfl⟩
  · intro hf
    rw [run_filter_rejected env st dir hcode hf]
  · intro hf hl hu
    cases hl0 : filterByInvitationCode dir (jsTrim st.inviteCode) with
    | nil => exact absurd hl0 hl
    | cons c rest => rw [run_no_user env st dir c rest hcode hf hl0 hu]
  · intro c rest u hf hl hu hm hw
    rw [run_update_rejected env st dir c rest u hcode hf hl hu hm hw]

theorem C16_isJoining_reset_only_without_failure_witness :
    ((handleJoinWithCode idEnv stBob dirABC).state.isJoining = false ∧
        (handleJoinWithCode idEnv stBob dirABC).state.inviteCode = "") ∧
      ((handleJoinWithCode idEnv stBobUnknown dirABC).state.isJoining = false ∧
        (handleJoinWithCode idEnv stBobUnknown dirABC).state.inviteCode = "ZZZZZZ") ∧
      ((handleJoinWithCode envUpdateRejects stBob dirABC).state.isJoining = true ∧
        (handleJoinWithCode envUpdateRejects stBob dirABC).state.inviteCode = " ABC123 ") ∧
      (handleJoinWithCode idEnv stNoUser dirABC).outcome = .threw .typeError := by
  have h1 := (C16_isJoining_reset_only_without_failure idEnv stBob dirABC
    (by decide)).2.1 "c1" (Or.inl (by decide))
  have h2 := (C16_isJoining_reset_only_without_failure idEnv stBobUnknown dirABC
    (by decide)).1 (by decide)
  have h3 := (C16_isJoining_reset_only_without_failure envUpdateRejects stBob dirABC
    (by decide)).2.2.1 .rejected (by decide)
  have h4 := (C16_isJoining_reset_only_without_failure idEnv stNoUser dirABC
    (by decide)).2.2.2.2.2.2.1 rfl (by decide) rfl
  exact ⟨h1, h2, h3, h4⟩

end Meetly
